import Mathlib

/-!
Verification of the dual-mode call executor in `src/forge/src/executor/mod.rs`.

The executor drives an external interpreter (revm's `EVM`) against a layered
state store (`CacheDB`), selecting a committing or a speculative path per call.
The interpreter, the ABI encode/decode layer and the revert-reason decoder are
external collaborators: they are taken as parameters of the embedded
operations.  The layered store (`CacheDB`, module `db`) is part of the
repository but its source is not available here, so it is modelled from the
specification of the Layered State Store (read / insert / apply).

Machine integers (`U256`, `u64`, addresses) are modelled as `Nat`: the
executor never performs arithmetic on them apart from copying, so overflow
cannot be observed at this layer.
-/

namespace Foundry

/-- Addresses (`H160`), modelled as naturals. -/
abbrev Address := Nat

/-- 256-bit words, modelled as naturals (the executor only copies them). -/
abbrev U256 := Nat

/-- Raw byte strings (`bytes::Bytes`). -/
abbrev Bytes := List Nat

/-- A raw EVM log record (`ethers::abi::RawLog`): ordered topics plus data. -/
structure RawLog where
  topics : List U256
  data : Bytes
deriving DecidableEq, Repr

/-- revm status codes (`revm::Return`); the subset the executor distinguishes.
`cont`, `stop`, `ret` and `selfDestruct` are the arms of the `return_ok!`
macro; the rest are non-success statuses. -/
inductive Return where
  | cont
  | stop
  | ret
  | selfDestruct
  | revert
  | outOfGas
deriving DecidableEq, Repr

/-- The `return_ok!` macro: does a status belong to the success set? -/
def return_ok : Return → Bool
  | .cont => true
  | .stop => true
  | .ret => true
  | .selfDestruct => true
  | _ => false

/-- Models `format!("{:?}", status)`, the fallback revert reason. -/
def reprStatus : Return → String
  | .cont => "Continue"
  | .stop => "Stop"
  | .ret => "Return"
  | .selfDestruct => "SelfDestruct"
  | .revert => "Revert"
  | .outOfGas => "OutOfGas"

/-- Account state: balance, nonce, code and storage (spec section 3). -/
structure Account where
  balance : U256
  nonce : Nat
  code : Bytes
  storage : List (U256 × U256)
deriving DecidableEq, Repr

/-- The account an empty backing database reports for every address. -/
def Account.empty : Account := ⟨0, 0, [], []⟩

instance : Inhabited Account := ⟨Account.empty⟩

/-- A state changeset: the accounts one execution touched, as a diff
(`HashMap<Address, Account>`), modelled as an association list. -/
abbrev Changeset := List (Address × Account)

/-- Modelled from the spec: the Layered State Store (`CacheDB`, module
`src/forge/src/executor/db.rs`, not among the provided sources).  An overlay
cache keyed by address over a backing provider queried only on miss
(spec section 4.1).  The backing provider (`DatabaseRef`) is modelled as a
pure lookup function. -/
structure CacheDB where
  cache : List (Address × Account)
  backend : Address → Account

/-- Modelled from the spec: the empty backing database (`revm::db::EmptyDB`),
which reports the default account for every address. -/
def EmptyDB : Address → Account := fun _ => Account.empty

/-- Modelled from the spec: `CacheDB::new` starts with an empty overlay. -/
def CacheDB.new (backend : Address → Account) : CacheDB := ⟨[], backend⟩

/-- Modelled from the spec: `read(address)` returns the overlay entry if
present, else queries the backing provider. -/
def CacheDB.basic (db : CacheDB) (address : Address) : Account :=
  (db.cache.lookup address).getD (db.backend address)

/-- Modelled from the spec: `insert(address, account)` writes directly into
the overlay, shadowing the backing provider for that address. -/
def CacheDB.insert_cache (db : CacheDB) (address : Address) (account : Account) : CacheDB :=
  { db with cache := (address, account) :: db.cache }

/-- Modelled from the spec: `apply(changeset)` (`DatabaseCommit::commit`)
merges every entry of the changeset into the overlay, overwriting prior
values for touched addresses. -/
def CacheDB.commit (db : CacheDB) (changeset : Changeset) : CacheDB :=
  changeset.foldl (fun acc entry => acc.insert_cache entry.1 entry.2) db

/-- The last write a changeset performs for an address, if any. -/
def Changeset.lookup_last (changeset : Changeset) (address : Address) : Option Account :=
  match changeset with
  | [] => none
  | entry :: rest =>
    match Changeset.lookup_last rest address with
    | some account => some account
    | none => if entry.1 = address then some entry.2 else none

theorem CacheDB.basic_new (backend : Address → Account) (address : Address) :
    (CacheDB.new backend).basic address = backend address := rfl

theorem CacheDB.basic_insert_cache (db : CacheDB) (address other : Address) (account : Account) :
    (db.insert_cache address account).basic other =
      if other = address then account else db.basic other := by
  simp only [CacheDB.basic, CacheDB.insert_cache, List.lookup]
  by_cases h : other = address
  · simp [h]
  · simp [h, beq_false_of_ne h]

theorem CacheDB.basic_commit (changeset : Changeset) (db : CacheDB) (address : Address) :
    (db.commit changeset).basic address =
      (Changeset.lookup_last changeset address).getD (db.basic address) := by
  induction changeset generalizing db with
  | nil => rfl
  | cons entry rest ih =>
    show ((db.insert_cache entry.1 entry.2).commit rest).basic address = _
    rw [ih]
    rcases h : Changeset.lookup_last rest address with _ | account
    · simp only [Changeset.lookup_last, h, Option.getD_none, CacheDB.basic_insert_cache]
      by_cases he : entry.1 = address
      · simp [he]
      · rw [if_neg he, Option.getD_none, if_neg (mt Eq.symm he)]
    · simp [Changeset.lookup_last, h]

/-- The call target of a transaction (`revm::TransactTo`). -/
inductive TransactTo where
  | call (address : Address)
  | create
deriving DecidableEq, Repr

/-- The transaction environment (`revm::TxEnv`), built fresh per call. -/
structure TxEnv where
  caller : Address
  transact_to : TransactTo
  data : Bytes
  value : U256
deriving DecidableEq, Repr

/-- The per-executor environment template (`revm::Env`): chain and block
parameters plus the transaction slot that is overwritten per call. -/
structure Env where
  chain_id : Nat
  block_number : Nat
  tx : TxEnv
deriving DecidableEq, Repr

/-- The interpreter's transaction output (`revm::TransactOut`). -/
inductive TransactOut where
  | call (data : Bytes)
  | create (data : Bytes) (address : Option Address)
  | noOutput
deriving DecidableEq, Repr

/-- Everything one interpreter invocation produces: status, output, gas,
the state diff, the logs the `LogCollector` accumulated, and the number of
extra references to the collector's shared state (`Rc<RefCell<ExecutorState>>`)
still alive after the invocation.  `retained_refs = 0` means the executor
holds the sole remaining reference, so `Rc::try_unwrap` succeeds. -/
structure InterpResult where
  status : Return
  out : TransactOut
  gas : Nat
  state_changeset : Changeset
  logs : List RawLog
  retained_refs : Nat

/-- The external interpreter (`revm::EVM`), out of scope for this layer: a
function of the specialized environment and a read view of the store.  The
same interpreter core backs `inspect_ref` (speculative: the diff is only
returned) and `inspect_commit` (committing: the executor merges the diff
into its store). -/
abbrev Interp := Env → (Address → Account) → InterpResult

/-- The message `Rc::try_unwrap(state).expect(..)` aborts with. -/
def inspectorPanicMsg : String := "no inspector should be alive"

/-- An abstract ABI description (`ethers::abi::Abi`); only passed through to
the external revert-reason decoder. -/
structure Abi where
  abi_id : Nat
deriving DecidableEq, Repr

/-- Outcome of a Rust computation that may abort the process (`panic!`,
`expect`, `unreachable!`) instead of returning. -/
inductive PanicOr (α : Type) where
  | panic (msg : String)
  | ok (val : α)
deriving DecidableEq, Repr

/-- The executor error type (`EvmError`). -/
inductive EvmError where
  | execution (status : Return) (reason : String) (gas_used : Nat)
      (logs : List RawLog) (state_changeset : Option Changeset)
  | abiError (msg : String)
  | eyre (msg : String)
deriving DecidableEq, Repr

/-- The result of a raw call (`RawCallResult`). -/
structure RawCallResult where
  status : Return
  result : Bytes
  gas : Nat
  logs : List RawLog
  state_changeset : Option Changeset
deriving DecidableEq, Repr

/-- The result of a typed call (`CallResult<D>`). -/
structure CallResult (D : Type) where
  status : Return
  result : D
  gas : Nat
  logs : List RawLog
  state_changeset : Option Changeset

/-- The executor: one layered store plus one environment template.  The
backing database type parameter `DB: DatabaseRef` is fixed to the pure
lookup function inside `CacheDB`. -/
structure Executor where
  db : CacheDB
  env : Env

/-- `Executor::new`. -/
def Executor.new (inner_db : Address → Account) (env : Env) : Executor :=
  ⟨CacheDB.new inner_db, env⟩

/-- The store as the read view handed to the interpreter. -/
def db_view (e : Executor) : Address → Account := fun address => e.db.basic address

/-- The per-call environment for a plain call: the executor's template with
the transaction slot replaced (`evm.env = self.env.clone(); evm.env.tx = ..`). -/
def call_env (e : Executor) (from_ to_ : Address) (calldata : Bytes) (value : U256) : Env :=
  { e.env with tx := ⟨from_, .call to_, calldata, value⟩ }

/-- The per-call environment for a contract creation. -/
def deploy_env (e : Executor) (from_ : Address) (code : Bytes) (value : U256) : Env :=
  { e.env with tx := ⟨from_, .create, code, value⟩ }

/-- `match out { TransactOut::Call(data) => data, _ => Bytes::default() }`. -/
def raw_output : TransactOut → Bytes
  | .call data => data
  | _ => []

/-- `Executor::set_balance`: read the account, overwrite its balance, write
it back through `insert`. -/
def Executor.set_balance (e : Executor) (address : Address) (amount : U256) : Executor :=
  let account := e.db.basic address
  let account := { account with balance := amount }
  { e with db := e.db.insert_cache address account }

/-- `Executor::call_raw_committing` (takes `&mut self`): run the interpreter
with commit capability — the diff lands in the store — then reclaim the log
collector state, panicking if the interpreter retained a reference.  The
`state_changeset` field of the result is always `None`. -/
def Executor.call_raw_committing (interp : Interp) (e : Executor)
    (from_ to_ : Address) (calldata : Bytes) (value : U256) :
    PanicOr (RawCallResult × Executor) :=
  let r := interp (call_env e from_ to_ calldata value) (db_view e)
  let db := e.db.commit r.state_changeset
  if r.retained_refs = 0 then
    .ok ({ status := r.status, result := raw_output r.out, gas := r.gas,
           logs := r.logs, state_changeset := none }, { e with db := db })
  else
    .panic inspectorPanicMsg

/-- `Executor::call_raw` (takes `&self`): identical transaction construction,
but the interpreter only gets a read view of the store; the diff is captured
and returned as `Some(changeset)`.  The out-state is the unchanged executor —
the body performs no write to `self.db`. -/
def Executor.call_raw (interp : Interp) (e : Executor)
    (from_ to_ : Address) (calldata : Bytes) (value : U256) :
    PanicOr (RawCallResult × Executor) :=
  let r := interp (call_env e from_ to_ calldata value) (db_view e)
  if r.retained_refs = 0 then
    .ok ({ status := r.status, result := raw_output r.out, gas := r.gas,
           logs := r.logs, state_changeset := some r.state_changeset }, e)
  else
    .panic inspectorPanicMsg

/-- `foundry_utils::decode_revert(..).unwrap_or_else(|_| format!("{:?}", status))`:
best-effort revert reason with fallback to the raw status description. -/
def decode_revert_or_status (decode_revert : Bytes → Option Abi → Except String String)
    (output : Bytes) (abi : Option Abi) (status : Return) : String :=
  match decode_revert output abi with
  | .ok reason => reason
  | .error _ => reprStatus status

/-- `Executor::call_committing<D, T, F>`: encode, delegate to the raw
committing path, then decode on success or raise an Execution error on
non-success.  The changeset field is always `None` on this path.  The ABI
encode/decode layer is external and passed as parameters keyed by the
function signature string. -/
def Executor.call_committing {T D : Type} (interp : Interp)
    (encode_function_data : String → T → Except String Bytes)
    (decode_function_data : String → Bytes → Except String D)
    (decode_revert : Bytes → Option Abi → Except String String)
    (e : Executor) (from_ to_ : Address) (func : String) (args : T)
    (value : U256) (abi : Option Abi) :
    PanicOr (Except EvmError (CallResult D) × Executor) :=
  match encode_function_data func args with
  | .error msg => .ok (.error (.abiError msg), e)
  | .ok calldata =>
    match Executor.call_raw_committing interp e from_ to_ calldata value with
    | .panic msg => .panic msg
    | .ok (raw, e') =>
      if return_ok raw.status then
        match decode_function_data func raw.result with
        | .error msg => .ok (.error (.abiError msg), e')
        | .ok result =>
          .ok (.ok { status := raw.status, result := result, gas := raw.gas,
                     logs := raw.logs, state_changeset := none }, e')
      else
        .ok (.error (.execution raw.status
              (decode_revert_or_status decode_revert raw.result abi raw.status)
              raw.gas raw.logs none), e')

/-- `Executor::call<D, T, F>` (takes `&self`): same as the committing variant
but through the speculative raw path; the returned changeset is the raw
result's `Some(diff)`, also on the Execution error. -/
def Executor.call {T D : Type} (interp : Interp)
    (encode_function_data : String → T → Except String Bytes)
    (decode_function_data : String → Bytes → Except String D)
    (decode_revert : Bytes → Option Abi → Except String String)
    (e : Executor) (from_ to_ : Address) (func : String) (args : T)
    (value : U256) (abi : Option Abi) :
    PanicOr (Except EvmError (CallResult D) × Executor) :=
  match encode_function_data func args with
  | .error msg => .ok (.error (.abiError msg), e)
  | .ok calldata =>
    match Executor.call_raw interp e from_ to_ calldata value with
    | .panic msg => .panic msg
    | .ok (raw, e') =>
      if return_ok raw.status then
        match decode_function_data func raw.result with
        | .error msg => .ok (.error (.abiError msg), e')
        | .ok result =>
          .ok (.ok { status := raw.status, result := result, gas := raw.gas,
                     logs := raw.logs, state_changeset := raw.state_changeset }, e')
      else
        .ok (.error (.execution raw.status
              (decode_revert_or_status decode_revert raw.result abi raw.status)
              raw.gas raw.logs raw.state_changeset), e')

/-- `Executor::setup`: a committing call of `setUp()` on `address` from the
zero address with zero value, keeping only status and logs. -/
def Executor.setup (interp : Interp)
    (encode_function_data : String → Unit → Except String Bytes)
    (decode_function_data : String → Bytes → Except String Unit)
    (decode_revert : Bytes → Option Abi → Except String String)
    (e : Executor) (address : Address) :
    PanicOr (Except EvmError (Return × List RawLog) × Executor) :=
  match Executor.call_committing interp encode_function_data decode_function_data
      decode_revert e 0 address "setUp()" () 0 none with
  | .panic msg => .panic msg
  | .ok (.error err, e') => .ok (.error err, e')
  | .ok (.ok call_result, e') => .ok (.ok (call_result.status, call_result.logs), e')

/-- `Executor::deploy`: build a creation transaction, run committing, and
extract the created address.  A creation output without an address is an
`eyre::bail!("deployment failed")`; a non-creation output is `unreachable!()`.
The `bail` happens before the collector reclaim, the address extraction
before it as well, so the reclaim check only guards the success path. -/
def Executor.deploy (interp : Interp) (e : Executor)
    (from_ : Address) (code : Bytes) (value : U256) :
    PanicOr (Except String (Address × Return × Nat × List RawLog) × Executor) :=
  let r := interp (deploy_env e from_ code value) (db_view e)
  let e' : Executor := { e with db := e.db.commit r.state_changeset }
  match r.out with
  | .create _ (some address) =>
    if r.retained_refs = 0 then
      .ok (.ok (address, r.status, r.gas, r.logs), e')
    else
      .panic inspectorPanicMsg
  | .create _ none => .ok (.error "deployment failed", e')
  | _ => .panic "internal error: entered unreachable code"

/-- The fresh minimal store `is_success` builds: an empty-backed `CacheDB`
seeded with the current store's view of `address`, with the changeset
committed on top. -/
def Executor.is_success_db (e : Executor) (address : Address)
    (state_changeset : Changeset) : CacheDB :=
  ((CacheDB.new EmptyDB).insert_cache address (e.db.basic address)).commit state_changeset

/-- `Executor::is_success` (takes `&self`): success iff the status is in the
success set, downgraded to failure when the `failed()` probe — a speculative
call on a throwaway executor over `is_success_db` — completes and returns
`true`; finally XORed with `should_fail`. -/
def Executor.is_success (interp : Interp)
    (encode_function_data : String → Unit → Except String Bytes)
    (decode_function_data : String → Bytes → Except String Bool)
    (decode_revert : Bytes → Option Abi → Except String String)
    (e : Executor) (address : Address) (status : Return)
    (state_changeset : Changeset) (should_fail : Bool) : PanicOr Bool :=
  let success := return_ok status
  let executor : Executor := ⟨e.is_success_db address state_changeset, e.env⟩
  if success then
    match Executor.call interp encode_function_data decode_function_data decode_revert
        executor 0 address "failed()(bool)" () 0 none with
    | .panic msg => .panic msg
    | .ok (.ok call_result, _) => .ok (Bool.xor should_fail (!call_result.result))
    | .ok (.error _, _) => .ok (Bool.xor should_fail success)
  else
    .ok (Bool.xor should_fail success)

/-- Whether the `failed()` probe issued by `is_success` completes with `Ok`
and reports a sticky failure (result `true`); a probe that reverts or cannot
be decoded reports nothing. -/
def probe_reports_failed (interp : Interp)
    (encode_function_data : String → Unit → Except String Bytes)
    (decode_function_data : String → Bytes → Except String Bool)
    (decode_revert : Bytes → Option Abi → Except String String)
    (e : Executor) (address : Address) (state_changeset : Changeset) : Bool :=
  match Executor.call interp encode_function_data decode_function_data decode_revert
      ⟨e.is_success_db address state_changeset, e.env⟩ 0 address "failed()(bool)" () 0 none with
  | .ok (.ok call_result, _) => call_result.result
  | _ => false

/-- The interpreter result a raw call observes: the interpreter applied to
the specialized call environment and the store's read view. -/
def call_interp_result (interp : Interp) (e : Executor)
    (from_ to_ : Address) (calldata : Bytes) (value : U256) : InterpResult :=
  interp (call_env e from_ to_ calldata value) (db_view e)

/-- The interpreter result a deployment observes. -/
def deploy_interp_result (interp : Interp) (e : Executor)
    (from_ : Address) (code : Bytes) (value : U256) : InterpResult :=
  interp (deploy_env e from_ code value) (db_view e)

theorem call_raw_eq (interp : Interp) (e : Executor)
    (from_ to_ : Address) (calldata : Bytes) (value : U256) :
    Executor.call_raw interp e from_ to_ calldata value =
      (if (call_interp_result interp e from_ to_ calldata value).retained_refs = 0 then
        .ok ({ status := (call_interp_result interp e from_ to_ calldata value).status,
               result := raw_output (call_interp_result interp e from_ to_ calldata value).out,
               gas := (call_interp_result interp e from_ to_ calldata value).gas,
               logs := (call_interp_result interp e from_ to_ calldata value).logs,
               state_changeset :=
                 some (call_interp_result interp e from_ to_ calldata value).state_changeset }, e)
      else .panic inspectorPanicMsg) := rfl

theorem call_raw_committing_eq (interp : Interp) (e : Executor)
    (from_ to_ : Address) (calldata : Bytes) (value : U256) :
    Executor.call_raw_committing interp e from_ to_ calldata value =
      (if (call_interp_result interp e from_ to_ calldata value).retained_refs = 0 then
        .ok ({ status := (call_interp_result interp e from_ to_ calldata value).status,
               result := raw_output (call_interp_result interp e from_ to_ calldata value).out,
               gas := (call_interp_result interp e from_ to_ calldata value).gas,
               logs := (call_interp_result interp e from_ to_ calldata value).logs,
               state_changeset := none },
             { e with db :=
                 e.db.commit (call_interp_result interp e from_ to_ calldata value).state_changeset })
      else .panic inspectorPanicMsg) := rfl

theorem raw_output_of_non_call (out : TransactOut)
    (h : ∀ data, out ≠ .call data) : raw_output out = [] := by
  cases out with
  | call data => exact absurd rfl (h data)
  | create data address => rfl
  | noOutput => rfl

/- Concrete fixtures used by the witness theorems. -/

/-- A concrete environment template. -/
def env0 : Env := ⟨1, 100, ⟨0, .call 0, [], 0⟩⟩

/-- A concrete executor over an empty backing database. -/
def e0 : Executor := Executor.new EmptyDB env0

/-- An interpreter that succeeds on a call with some output, diff and log. -/
def interpStop : Interp :=
  fun _ _ => ⟨.stop, .call [7], 3, [(5, ⟨9, 1, [], []⟩)], [⟨[1], [2]⟩], 0⟩

/-- An interpreter that reverts. -/
def interpRevert : Interp := fun _ _ => ⟨.revert, .call [8], 4, [], [], 0⟩

/-- An interpreter that retains a reference to the collector state. -/
def interpRetain : Interp := fun _ _ => ⟨.stop, .call [], 0, [], [], 1⟩

/-- An interpreter whose creation output carries no address. -/
def interpCreateNone : Interp := fun _ _ => ⟨.stop, .create [] none, 0, [], [], 0⟩

/-- An interpreter whose creation output carries address 42. -/
def interpCreateSome : Interp := fun _ _ => ⟨.stop, .create [] (some 42), 5, [], [], 0⟩

/-- An interpreter that creates address 42 but retains a collector reference. -/
def interpCreateRetain : Interp := fun _ _ => ⟨.stop, .create [] (some 42), 5, [], [], 2⟩

/-- A concrete ABI encoder that always succeeds with empty calldata. -/
def enc0 {T : Type} : String → T → Except String Bytes := fun _ _ => .ok []

/-- A concrete decoder reporting `false` from the probe. -/
def decBfalse : String → Bytes → Except String Bool := fun _ _ => .ok false

/-- A concrete decoder reporting `true` from the probe. -/
def decBtrue : String → Bytes → Except String Bool := fun _ _ => .ok true

/-- A concrete revert decoder that always fails. -/
def decRfail : Bytes → Option Abi → Except String String := fun _ _ => .error "undecodable"

/-- A concrete revert decoder that always succeeds. -/
def decRok : Bytes → Option Abi → Except String String := fun _ _ => .ok "assertion failed"

/-- C1: a speculative invocation through `call` or `call_raw` (which take the
executor by shared reference) leaves the layered state store unchanged:
reading any address before and after yields the same account, for every
call outcome. -/
theorem speculative_call_preserves_store {T D : Type} (interp : Interp)
    (encode_function_data : String → T → Except String Bytes)
    (decode_function_data : String → Bytes → Except String D)
    (decode_revert : Bytes → Option Abi → Except String String)
    (e : Executor) (from_ to_ : Address) (calldata : Bytes) (func : String) (args : T)
    (value : U256) (abi : Option Abi) :
    (∀ raw e', Executor.call_raw interp e from_ to_ calldata value = .ok (raw, e') →
      ∀ address, e'.db.basic address = e.db.basic address)
    ∧ (∀ res e', Executor.call interp encode_function_data decode_function_data decode_revert
          e from_ to_ func args value abi = .ok (res, e') →
      ∀ address, e'.db.basic address = e.db.basic address) := by
  have hraw : ∀ cd raw e', Executor.call_raw interp e from_ to_ cd value = .ok (raw, e') →
      e' = e := by
    intro cd raw e' h
    rw [call_raw_eq] at h
    split at h
    · cases h; rfl
    · cases h
  refine ⟨fun raw e' h address => by rw [hraw calldata raw e' h], ?_⟩
  intro res e' h address
  unfold Executor.call at h
  rcases henc : encode_function_data func args with msg | cd
  · rw [henc] at h; cases h; rfl
  · rw [henc] at h
    dsimp only at h
    rcases hcr : Executor.call_raw interp e from_ to_ cd value with msg | ⟨raw, e₁⟩
    · rw [hcr] at h; cases h
    · rw [hcr] at h
      rw [hraw cd raw e₁ hcr] at h
      dsimp only at h
      split at h
      · split at h
        · cases h; rfl
        · cases h; rfl
      · cases h; rfl

/-- Witness for C1 at a concrete reverting speculative call. -/
theorem speculative_call_preserves_store_witness :
    Executor.call_raw interpRevert e0 1 2 [3] 0 =
      .ok ({ status := .revert, result := [8], gas := 4, logs := [],
             state_changeset := some [] }, e0)
    ∧ (e0.db.basic 5 = e0.db.basic 5) :=
  ⟨rfl, (speculative_call_preserves_store interpRevert (enc0 (T := Unit)) decBfalse decRfail
      e0 1 2 [3] "f()" () 0 none).1
    { status := .revert, result := [8], gas := 4, logs := [], state_changeset := some [] }
    e0 rfl 5⟩

/-- C8: `set_balance` followed by a read of the same address yields exactly
the prior account with its balance replaced, and leaves every other address
unchanged. -/
theorem set_balance_spec (e : Executor) (address : Address) (amount : U256) :
    ((e.set_balance address amount).db.basic address).balance = amount
    ∧ (e.set_balance address amount).db.basic address =
        { e.db.basic address with balance := amount }
    ∧ (∀ other, other ≠ address →
        (e.set_balance address amount).db.basic other = e.db.basic other) := by
  refine ⟨?_, ?_, ?_⟩
  · simp [Executor.set_balance, CacheDB.basic_insert_cache]
  · simp [Executor.set_balance, CacheDB.basic_insert_cache]
  · intro other hother
    simp [Executor.set_balance, CacheDB.basic_insert_cache, hother]

/-- Witness for C8 at a concrete store and addresses. -/
theorem set_balance_spec_witness :
    (2 : Address) ≠ 1 ∧ (e0.set_balance 1 5).db.basic 2 = e0.db.basic 2 :=
  ⟨by decide, (set_balance_spec e0 1 5).2.2 2 (by decide)⟩

/-- C9: after an interpreter invocation, reclaiming the log-collector state
panics exactly when another holder still retains a reference; with the sole
remaining reference the reclaim succeeds.  For `deploy` the reclaim guards
the path where the creation output carries an address (the bail on a missing
address returns before the reclaim). -/
theorem inspector_reclaim_panics_iff_retained (interp : Interp) (e : Executor)
    (from_ to_ : Address) (calldata code : Bytes) (value : U256) :
    ((∃ msg, Executor.call_raw interp e from_ to_ calldata value = .panic msg) ↔
      (call_interp_result interp e from_ to_ calldata value).retained_refs ≠ 0)
    ∧ ((∃ msg, Executor.call_raw_committing interp e from_ to_ calldata value = .panic msg) ↔
      (call_interp_result interp e from_ to_ calldata value).retained_refs ≠ 0)
    ∧ (∀ data address,
        (deploy_interp_result interp e from_ code value).out = .create data (some address) →
        ((∃ msg, Executor.deploy interp e from_ code value = .panic msg) ↔
          (deploy_interp_result interp e from_ code value).retained_refs ≠ 0)) := by
  refine ⟨⟨fun hpanic => ?_, fun hretained => ⟨inspectorPanicMsg, ?_⟩⟩,
          ⟨fun hpanic => ?_, fun hretained => ⟨inspectorPanicMsg, ?_⟩⟩,
          fun data address hout => ⟨fun hpanic => ?_, fun hretained => ⟨inspectorPanicMsg, ?_⟩⟩⟩
  · obtain ⟨msg, hmsg⟩ := hpanic
    rw [call_raw_eq] at hmsg
    intro hzero
    rw [if_pos hzero] at hmsg
    cases hmsg
  · rw [call_raw_eq, if_neg hretained]
  · obtain ⟨msg, hmsg⟩ := hpanic
    rw [call_raw_committing_eq] at hmsg
    intro hzero
    rw [if_pos hzero] at hmsg
    cases hmsg
  · rw [call_raw_committing_eq, if_neg hretained]
  · obtain ⟨msg, hmsg⟩ := hpanic
    intro hzero
    unfold Executor.deploy at hmsg
    rw [show interp (deploy_env e from_ code value) (db_view e) =
          deploy_interp_result interp e from_ code value from rfl] at hmsg
    dsimp only at hmsg
    rw [hout] at hmsg
    dsimp only at hmsg
    rw [if_pos hzero] at hmsg
    cases hmsg
  · unfold Executor.deploy
    rw [show interp (deploy_env e from_ code value) (db_view e) =
          deploy_interp_result interp e from_ code value from rfl]
    dsimp only
    rw [hout]
    dsimp only
    rw [if_neg hretained]

/-- Witness for C9: a deployment whose interpreter retains two references to
the collector state panics. -/
theorem inspector_reclaim_panics_iff_retained_witness :
    (deploy_interp_result interpCreateRetain e0 0 [] 0).out = .create [] (some 42)
    ∧ ((∃ msg, Executor.deploy interpCreateRetain e0 0 [] 0 = .panic msg) ↔
        (deploy_interp_result interpCreateRetain e0 0 [] 0).retained_refs ≠ 0) :=
  ⟨rfl, (inspector_reclaim_panics_iff_retained interpCreateRetain e0 0 0 [] [] 0).2.2
    [] 42 rfl⟩

/-- C10: when the interpreter's transaction output is not a `Call` output,
the raw result bytes are empty (no error is raised), while status, gas and
logs are reported as the interpreter produced them — on both raw paths. -/
theorem non_call_output_empty_result (interp : Interp) (e : Executor)
    (from_ to_ : Address) (calldata : Bytes) (value : U256) :
    (∀ raw e', Executor.call_raw interp e from_ to_ calldata value = .ok (raw, e') →
      (∀ data, (call_interp_result interp e from_ to_ calldata value).out ≠ .call data) →
      raw.result = []
      ∧ raw.status = (call_interp_result interp e from_ to_ calldata value).status
      ∧ raw.gas = (call_interp_result interp e from_ to_ calldata value).gas
      ∧ raw.logs = (call_interp_result interp e from_ to_ calldata value).logs)
    ∧ (∀ raw e', Executor.call_raw_committing interp e from_ to_ calldata value = .ok (raw, e') →
      (∀ data, (call_interp_result interp e from_ to_ calldata value).out ≠ .call data) →
      raw.result = []
      ∧ raw.status = (call_interp_result interp e from_ to_ calldata value).status
      ∧ raw.gas = (call_interp_result interp e from_ to_ calldata value).gas
      ∧ raw.logs = (call_interp_result interp e from_ to_ calldata value).logs) := by
  constructor
  · intro raw e' h hout
    rw [call_raw_eq] at h
    split at h
    · cases h
      exact ⟨raw_output_of_non_call _ hout, rfl, rfl, rfl⟩
    · cases h
  · intro raw e' h hout
    rw [call_raw_committing_eq] at h
    split at h
    · cases h
      exact ⟨raw_output_of_non_call _ hout, rfl, rfl, rfl⟩
    · cases h

/-- Witness for C10: a raw call whose interpreter yields a creation output
returns empty bytes with the interpreter's status, gas and logs. -/
theorem non_call_output_empty_result_witness :
    Executor.call_raw interpCreateNone e0 1 2 [3] 0 =
      .ok ({ status := .stop, result := [], gas := 0, logs := [],
             state_changeset := some [] }, e0)
    ∧ ([] : Bytes) = []
      ∧ Return.stop = (call_interp_result interpCreateNone e0 1 2 [3] 0).status
      ∧ 0 = (call_interp_result interpCreateNone e0 1 2 [3] 0).gas
      ∧ ([] : List RawLog) = (call_interp_result interpCreateNone e0 1 2 [3] 0).logs :=
  ⟨rfl, (non_call_output_empty_result interpCreateNone e0 1 2 [3] 0).1
    { status := .stop, result := [], gas := 0, logs := [], state_changeset := some [] }
    e0 rfl (fun _ h => nomatch h)⟩

/-- Whether a typed call outcome's changeset field (on the success record or
on an Execution error) is present. -/
def changeset_present {D : Type} : Except EvmError (CallResult D) → Prop
  | .ok call_result => call_result.state_changeset.isSome = true
  | .error (.execution _ _ _ _ state_changeset) => state_changeset.isSome = true
  | .error _ => True

/-- Whether a typed call outcome's changeset field (on the success record or
on an Execution error) is absent. -/
def changeset_absent {D : Type} : Except EvmError (CallResult D) → Prop
  | .ok call_result => call_result.state_changeset = none
  | .error (.execution _ _ _ _ state_changeset) => state_changeset = none
  | .error _ => True

/-- C3: every result of the speculative path (`call` / `call_raw`) carries
`Some` changeset and every result of the committing path (`call_committing` /
`call_raw_committing`) carries `None`, on success records and on Execution
errors alike. -/
theorem changeset_some_iff_speculative {T D : Type} (interp : Interp)
    (encode_function_data : String → T → Except String Bytes)
    (decode_function_data : String → Bytes → Except String D)
    (decode_revert : Bytes → Option Abi → Except String String)
    (e : Executor) (from_ to_ : Address) (calldata : Bytes) (func : String) (args : T)
    (value : U256) (abi : Option Abi) :
    (∀ raw e', Executor.call_raw interp e from_ to_ calldata value = .ok (raw, e') →
      raw.state_changeset.isSome = true)
    ∧ (∀ raw e', Executor.call_raw_committing interp e from_ to_ calldata value = .ok (raw, e') →
      raw.state_changeset = none)
    ∧ (∀ res e', Executor.call interp encode_function_data decode_function_data decode_revert
          e from_ to_ func args value abi = .ok (res, e') → changeset_present res)
    ∧ (∀ res e', Executor.call_committing interp encode_function_data decode_function_data
          decode_revert e from_ to_ func args value abi = .ok (res, e') →
      changeset_absent res) := by
  refine ⟨?_, ?_, ?_, ?_⟩
  · intro raw e' h
    rw [call_raw_eq] at h
    split at h
    · cases h; rfl
    · cases h
  · intro raw e' h
    rw [call_raw_committing_eq] at h
    split at h
    · cases h; rfl
    · cases h
  · intro res e' h
    unfold Executor.call at h
    rcases henc : encode_function_data func args with msg | cd
    · rw [henc] at h; cases h; trivial
    · rw [henc] at h
      dsimp only at h
      rcases hcr : Executor.call_raw interp e from_ to_ cd value with msg | ⟨raw, e₁⟩
      · rw [hcr] at h; cases h
      · have hsome : raw.state_changeset.isSome = true := by
          rw [call_raw_eq] at hcr
          split at hcr
          · cases hcr; rfl
          · cases hcr
        rw [hcr] at h
        dsimp only at h
        split at h
        · split at h
          · cases h; trivial
          · cases h; exact hsome
        · cases h; exact hsome
  · intro res e' h
    unfold Executor.call_committing at h
    rcases henc : encode_function_data func args with msg | cd
    · rw [henc] at h; cases h; trivial
    · rw [henc] at h
      dsimp only at h
      rcases hcr : Executor.call_raw_committing interp e from_ to_ cd value with msg | ⟨raw, e₁⟩
      · rw [hcr] at h; cases h
      · rw [hcr] at h
        dsimp only at h
        split at h
        · split at h
          · cases h; trivial
          · cases h; rfl
        · cases h; rfl

/-- Witness for C3: a concrete committing raw call reports no changeset. -/
theorem changeset_some_iff_speculative_witness :
    Executor.call_raw_committing interpStop e0 1 2 [3] 0 =
      .ok ({ status := .stop, result := [7], gas := 3, logs := [⟨[1], [2]⟩],
             state_changeset := none },
           { e0 with db := e0.db.commit [(5, ⟨9, 1, [], []⟩)] })
    ∧ (none : Option Changeset) = none :=
  ⟨rfl, (changeset_some_iff_speculative interpStop (enc0 (T := Unit)) decBfalse decRfail
      e0 1 2 [3] "f()" () 0 none).2.1
    { status := .stop, result := [7], gas := 3, logs := [⟨[1], [2]⟩], state_changeset := none }
    { e0 with db := e0.db.commit [(5, ⟨9, 1, [], []⟩)] } rfl⟩

/-- C4: a deployment whose interpreter outcome is a creation result without
an address returns the "deployment failed" error, never a successful tuple;
conversely a successful deploy only ever reports an address the interpreter
yielded. -/
theorem deploy_requires_address (interp : Interp) (e : Executor)
    (from_ : Address) (code : Bytes) (value : U256) :
    (∀ data, (deploy_interp_result interp e from_ code value).out = .create data none →
      ∃ e', Executor.deploy interp e from_ code value = .ok (.error "deployment failed", e'))
    ∧ (∀ address status gas logs e',
        Executor.deploy interp e from_ code value = .ok (.ok (address, status, gas, logs), e') →
        ∃ data, (deploy_interp_result interp e from_ code value).out =
          .create data (some address)) := by
  constructor
  · intro data hout
    refine ⟨⟨e.db.commit (deploy_interp_result interp e from_ code value).state_changeset,
      e.env⟩, ?_⟩
    unfold Executor.deploy
    rw [show interp (deploy_env e from_ code value) (db_view e) =
          deploy_interp_result interp e from_ code value from rfl]
    dsimp only
    rw [hout]
  · intro address status gas logs e' h
    unfold Executor.deploy at h
    rw [show interp (deploy_env e from_ code value) (db_view e) =
          deploy_interp_result interp e from_ code value from rfl] at h
    dsimp only at h
    rcases hout : (deploy_interp_result interp e from_ code value).out with
      data | ⟨data, _ | address'⟩ | _
    · rw [hout] at h
      dsimp only at h
      cases h
    · rw [hout] at h
      dsimp only at h
      cases h
    · rw [hout] at h
      dsimp only at h
      split at h
      · cases h
        exact ⟨data, rfl⟩
      · cases h
    · rw [hout] at h
      dsimp only at h
      cases h

/-- Witness for C4: a concrete deployment whose creation output carries no
address fails with "deployment failed". -/
theorem deploy_requires_address_witness :
    (deploy_interp_result interpCreateNone e0 0 [1] 0).out = .create [] none
    ∧ ∃ e', Executor.deploy interpCreateNone e0 0 [1] 0 =
        .ok (.error "deployment failed", e') :=
  ⟨rfl, (deploy_requires_address interpCreateNone e0 0 [1] 0).1 [] rfl⟩

/-- C6: a typed call (speculative or committing) whose raw execution
completes with a non-success status returns — not aborts with — an
Execution error carrying that status, the gas consumed, the logs emitted,
and a reason equal to the decoded revert reason, falling back to the textual
status description when decoding fails. -/
theorem typed_call_failure_yields_execution_error {T D : Type} (interp : Interp)
    (encode_function_data : String → T → Except String Bytes)
    (decode_function_data : String → Bytes → Except String D)
    (decode_revert : Bytes → Option Abi → Except String String)
    (e : Executor) (from_ to_ : Address) (func : String) (args : T)
    (value : U256) (abi : Option Abi) :
    (∀ calldata raw e₁, encode_function_data func args = .ok calldata →
      Executor.call_raw interp e from_ to_ calldata value = .ok (raw, e₁) →
      return_ok raw.status = false →
      Executor.call interp encode_function_data decode_function_data decode_revert
          e from_ to_ func args value abi =
        .ok (.error (.execution raw.status
              (decode_revert_or_status decode_revert raw.result abi raw.status)
              raw.gas raw.logs raw.state_changeset), e₁))
    ∧ (∀ calldata raw e₁, encode_function_data func args = .ok calldata →
      Executor.call_raw_committing interp e from_ to_ calldata value = .ok (raw, e₁) →
      return_ok raw.status = false →
      Executor.call_committing interp encode_function_data decode_function_data decode_revert
          e from_ to_ func args value abi =
        .ok (.error (.execution raw.status
              (decode_revert_or_status decode_revert raw.result abi raw.status)
              raw.gas raw.logs none), e₁))
    ∧ (∀ output status reason, decode_revert output abi = .ok reason →
        decode_revert_or_status decode_revert output abi status = reason)
    ∧ (∀ output status msg, decode_revert output abi = .error msg →
        decode_revert_or_status decode_revert output abi status = reprStatus status) := by
  refine ⟨?_, ?_, ?_, ?_⟩
  · intro calldata raw e₁ henc hcr hstatus
    unfold Executor.call
    rw [henc]
    dsimp only
    rw [hcr]
    dsimp only
    rw [if_neg (by simp [hstatus])]
  · intro calldata raw e₁ henc hcr hstatus
    unfold Executor.call_committing
    rw [henc]
    dsimp only
    rw [hcr]
    dsimp only
    rw [if_neg (by simp [hstatus])]
  · intro output status reason hdec
    unfold decode_revert_or_status
    rw [hdec]
  · intro output status msg hdec
    unfold decode_revert_or_status
    rw [hdec]

/-- Witness for C6: a concrete reverting speculative call with an
undecodable revert reason returns the Execution error with the fallback
reason "Revert". -/
theorem typed_call_failure_yields_execution_error_witness :
    enc0 "f()" () = .ok ([] : Bytes)
    ∧ Executor.call_raw interpRevert e0 1 2 [] 0 =
        .ok ({ status := .revert, result := [8], gas := 4, logs := [],
               state_changeset := some [] }, e0)
    ∧ return_ok .revert = false
    ∧ Executor.call interpRevert (enc0 (T := Unit)) decBfalse decRfail
        e0 1 2 "f()" () 0 none =
      .ok (.error (.execution .revert
            (decode_revert_or_status decRfail [8] none .revert) 4 [] (some [])), e0) :=
  ⟨rfl, rfl, rfl,
    (typed_call_failure_yields_execution_error interpRevert (enc0 (T := Unit)) decBfalse
        decRfail e0 1 2 "f()" () 0 none).1 []
      { status := .revert, result := [8], gas := 4, logs := [], state_changeset := some [] }
      e0 rfl rfl rfl⟩

/-- C7: `setup` is exactly a committing call of the zero-argument `setUp()`
function on the target, from the zero address with zero value, keeping the
pair (status, logs); a revert of `setUp()` surfaces as the Execution error
of that committing call. -/
theorem setup_is_committing_setUp (interp : Interp)
    (encode_function_data : String → Unit → Except String Bytes)
    (decode_function_data : String → Bytes → Except String Unit)
    (decode_revert : Bytes → Option Abi → Except String String)
    (e : Executor) (address : Address) :
    (Executor.setup interp encode_function_data decode_function_data decode_revert e address =
      match Executor.call_committing interp encode_function_data decode_function_data
          decode_revert e 0 address "setUp()" () 0 none with
      | .panic msg => .panic msg
      | .ok (.error err, e') => .ok (.error err, e')
      | .ok (.ok call_result, e') => .ok (.ok (call_result.status, call_result.logs), e'))
    ∧ (∀ calldata raw e₁, encode_function_data "setUp()" () = .ok calldata →
        Executor.call_raw_committing interp e 0 address calldata 0 = .ok (raw, e₁) →
        return_ok raw.status = false →
        Executor.setup interp encode_function_data decode_function_data decode_revert
            e address =
          .ok (.error (.execution raw.status
                (decode_revert_or_status decode_revert raw.result none raw.status)
                raw.gas raw.logs none), e₁)) := by
  constructor
  · rfl
  · intro calldata raw e₁ henc hcr hstatus
    unfold Executor.setup
    rw [(typed_call_failure_yields_execution_error interp encode_function_data
          decode_function_data decode_revert e 0 address "setUp()" () 0 none).2.1
        calldata raw e₁ henc hcr hstatus]

/-- Witness for C7: a concrete reverting `setUp()` call surfaces the
Execution error. -/
theorem setup_is_committing_setUp_witness :
    enc0 "setUp()" () = .ok ([] : Bytes)
    ∧ Executor.call_raw_committing interpRevert e0 0 7 [] 0 =
        .ok ({ status := .revert, result := [8], gas := 4, logs := [],
               state_changeset := none }, e0)
    ∧ return_ok .revert = false
    ∧ Executor.setup interpRevert (enc0 (T := Unit)) (fun _ _ => .ok ()) decRok e0 7 =
        .ok (.error (.execution .revert
              (decode_revert_or_status decRok [8] none .revert) 4 [] none), e0) :=
  ⟨rfl, rfl, rfl,
    (setup_is_committing_setUp interpRevert (enc0 (T := Unit)) (fun _ _ => .ok ()) decRok
        e0 7).2 []
      { status := .revert, result := [8], gas := 4, logs := [], state_changeset := none }
      e0 rfl rfl rfl⟩

/-- C5: the store the `failed()` probe runs against holds exactly the single
account `address` seeded from the current store's view of `address` (over an
empty backing database) with the changeset applied on top: a read of
`address` sees the changeset's last write for it, else the seeded account;
a read of any other address sees the changeset's last write for it, else the
empty account.  Moreover `is_success` depends on the original executor only
through its view of `address` and its environment — no other account
influences the evaluation, and the original store is not touched. -/
theorem is_success_probe_store_spec (interp : Interp)
    (encode_function_data : String → Unit → Except String Bytes)
    (decode_function_data : String → Bytes → Except String Bool)
    (decode_revert : Bytes → Option Abi → Except String String)
    (e : Executor) (address : Address) (status : Return)
    (state_changeset : Changeset) (should_fail : Bool) :
    (∀ other, (e.is_success_db address state_changeset).basic other =
      (Changeset.lookup_last state_changeset other).getD
        (if other = address then e.db.basic address else Account.empty))
    ∧ (∀ e₂ : Executor, e₂.env = e.env → e₂.db.basic address = e.db.basic address →
        Executor.is_success interp encode_function_data decode_function_data decode_revert
            e₂ address status state_changeset should_fail =
          Executor.is_success interp encode_function_data decode_function_data decode_revert
            e address status state_changeset should_fail) := by
  constructor
  · intro other
    unfold Executor.is_success_db
    rw [CacheDB.basic_commit, CacheDB.basic_insert_cache]
    rfl
  · intro e₂ henv hdb
    unfold Executor.is_success
    rw [show e₂.is_success_db address state_changeset = e.is_success_db address state_changeset
        from by unfold Executor.is_success_db; rw [hdb], henv]

/-- A backing database holding a nonzero account at address 9 only. -/
def backend9 : Address → Account := fun a => if a = 9 then ⟨5, 0, [], []⟩ else Account.empty

/-- An executor over `backend9`, agreeing with `e0` at address 3. -/
def e9 : Executor := Executor.new backend9 env0

/-- Witness for C5: two executors agreeing on the probed address (but not at
address 9) produce the same `is_success` verdict. -/
theorem is_success_probe_store_spec_witness :
    e9.env = e0.env ∧ e9.db.basic 3 = e0.db.basic 3
    ∧ Executor.is_success interpStop (enc0 (T := Unit)) decBtrue decRfail
        e9 3 .stop [] false =
      Executor.is_success interpStop (enc0 (T := Unit)) decBtrue decRfail
        e0 3 .stop [] false :=
  ⟨rfl, rfl,
    (is_success_probe_store_spec interpStop (enc0 (T := Unit)) decBtrue decRfail
        e0 3 .stop [] false).2 e9 rfl rfl⟩

/-- C2: whenever `is_success` returns a verdict (does not abort), the
verdict is `should_fail XOR (status in the success set AND the probe does
not report a sticky failure)`; a probe call that does not complete with `Ok`
reports nothing. -/
theorem is_success_xor_spec (interp : Interp)
    (encode_function_data : String → Unit → Except String Bytes)
    (decode_function_data : String → Bytes → Except String Bool)
    (decode_revert : Bytes → Option Abi → Except String String)
    (e : Executor) (address : Address) (status : Return)
    (state_changeset : Changeset) (should_fail : Bool) (verdict : Bool)
    (h : Executor.is_success interp encode_function_data decode_function_data decode_revert
        e address status state_changeset should_fail = .ok verdict) :
    verdict = Bool.xor should_fail (return_ok status
      && !(probe_reports_failed interp encode_function_data decode_function_data decode_revert
            e address state_changeset)) := by
  unfold Executor.is_success at h
  unfold probe_reports_failed
  dsimp only at h
  rcases hstatus : return_ok status with _ | _
  · rw [hstatus] at h
    split at h
    · rename_i hcontra
      exact absurd hcontra (by simp)
    · cases h
      simp
  · rw [hstatus] at h
    split at h
    · rcases hcall : Executor.call interp encode_function_data decode_function_data decode_revert
          ⟨e.is_success_db address state_changeset, e.env⟩ 0 address "failed()(bool)" () 0 none
        with msg | ⟨res, e'⟩
      · rw [hcall] at h
        cases h
      · rcases res with err | call_result
        · rw [hcall] at h
          cases h
          simp
        · rw [hcall] at h
          cases h
          simp
    · rename_i hcontra
      exact absurd rfl hcontra

/-- Witness for C2: a successful status whose probe reports a sticky failure
yields the verdict `false` with `should_fail = false`. -/
theorem is_success_xor_spec_witness :
    Executor.is_success interpStop (enc0 (T := Unit)) decBtrue decRfail
        e0 7 .stop [] false = .ok false
    ∧ false = Bool.xor false (return_ok .stop
        && !(probe_reports_failed interpStop (enc0 (T := Unit)) decBtrue decRfail e0 7 [])) :=
  ⟨rfl, is_success_xor_spec interpStop (enc0 (T := Unit)) decBtrue decRfail
      e0 7 .stop [] false false rfl⟩

end Foundry
